import Mathlib

/-!
Shallow embedding of the RedEye server resolvers
(`applications/server/src/store/server-resolvers.ts`), the parser
file-validation HTTP endpoint (`parserFileValidation`), and the
`CommentsList` presentation component, together with proofs of the
specified properties.

Entities (`Server`, `Beacon`, `Host`) mirror the ORM rows the resolvers
touch; a `ProjectDb` is the campaign-scoped store.  Mutations are modelled
as pure state transformers returning `Option` (MikroORM's `findOneOrFail`
throwing `NotFound` becomes `none`).
-/

namespace RedEye

/-- A `Server` row: name, displayName, parsingPath, hidden flag and
`meta.type` (the `ServerType` enum value, modelled as a string). -/
structure Server where
  id : Nat
  name : String
  displayName : String
  parsingPath : String
  hidden : Bool
  metaType : Option String
  deriving Repr, DecidableEq

/-- A `Beacon` row: hidden flag, owning server and (optional) host
reference (`beacon.host?.id` can be absent), and a displayName. -/
structure Beacon where
  id : Nat
  hidden : Bool
  serverId : Nat
  hostId : Option Nat
  displayName : String
  deriving Repr, DecidableEq

/-- A `Host` row: hidden flag, displayName and the `cobaltStrikeServer`
flag used by display-name propagation. -/
structure Host where
  id : Nat
  hidden : Bool
  displayName : String
  cobaltStrikeServer : Bool
  deriving Repr, DecidableEq

/-- The campaign-scoped project database the resolvers operate on. -/
structure ProjectDb where
  servers : List Server
  beacons : List Beacon
  hosts : List Host
  deriving Repr, DecidableEq

/-- `em.nativeUpdate(Beacon, { id: bid }, { hidden: nh })`: set the hidden
flag of every beacon row whose id is `bid`. -/
def updBeaconHidden (bs : List Beacon) (bid : Nat) (nh : Bool) : List Beacon :=
  bs.map fun b => if b.id = bid then { b with hidden := nh } else b

/-- `em.nativeUpdate(Host, { id: beacon.host?.id }, { hidden: nh })`: when
the beacon has no host the filter id is `undefined` and no row matches. -/
def updHostHidden (hs : List Host) (hid : Option Nat) (nh : Bool) : List Host :=
  match hid with
  | none => hs
  | some i => hs.map fun h => if h.id = i then { h with hidden := nh } else h

/-- The body of `toggleServerHidden`'s `for (const beacon of server.beacons)`
loop: one `nativeUpdate` on the beacon row, one on its host row. -/
def toggleLoopStep (nh : Bool) (d : ProjectDb) (b : Beacon) : ProjectDb :=
  { d with
    beacons := updBeaconHidden d.beacons b.id nh
    hosts := updHostHidden d.hosts b.hostId nh }

/-- `toggleServerHidden(campaignId, serverId)`: load the server
(`findOneOrFail`), flip its hidden flag, then for every beacon of the
server update the beacon row and its host row to the new hidden value,
and persist the server.  Returns the persisted server and the new store. -/
def toggleServerHidden (db : ProjectDb) (serverId : Nat) :
    Option (Server × ProjectDb) :=
  match db.servers.find? (fun s => s.id = serverId) with
  | none => none
  | some server =>
    let newHidden := !server.hidden
    let sBeacons := db.beacons.filter (fun b => b.serverId = serverId)
    let db1 := sBeacons.foldl (toggleLoopStep newHidden) db
    let server' := { server with hidden := newHidden }
    some (server',
      { db1 with
        servers := db1.servers.map fun s =>
          if s.id = serverId then { s with hidden := newHidden } else s })

section ToggleLemmas

/-- Folding the toggle loop never touches the `servers` column. -/
theorem toggleLoop_servers (nh : Bool) (L : List Beacon) (db : ProjectDb) :
    (L.foldl (toggleLoopStep nh) db).servers = db.servers := by
  induction L generalizing db with
  | nil => rfl
  | cons a L ih => simpa [toggleLoopStep] using ih (toggleLoopStep nh db a)

/-- After the toggle loop, a beacon row is set to the new hidden value
exactly when its id occurs among the visited beacons. -/
theorem toggleLoop_beacons (nh : Bool) (L : List Beacon) (db : ProjectDb) :
    (L.foldl (toggleLoopStep nh) db).beacons =
      db.beacons.map fun b =>
        if L.any (fun x => x.id = b.id) then { b with hidden := nh } else b := by
  induction L generalizing db with
  | nil =>
    simp
  | cons a L ih =>
    rw [List.foldl_cons, ih]
    show (updBeaconHidden db.beacons a.id nh).map _ = _
    rw [updBeaconHidden, List.map_map]
    refine List.map_congr_left fun b _ => ?_
    by_cases hab : b.id = a.id
    · by_cases hL : L.any (fun x => x.id = b.id)
      all_goals simp [Function.comp, hab, hL]
    · have : ¬ (a.id = b.id) := fun h => hab h.symm
      by_cases hL : L.any (fun x => x.id = b.id)
      all_goals simp [Function.comp, hab, this, hL]

/-- After the toggle loop, a host row is set to the new hidden value
exactly when some visited beacon references it. -/
theorem toggleLoop_hosts (nh : Bool) (L : List Beacon) (db : ProjectDb) :
    (L.foldl (toggleLoopStep nh) db).hosts =
      db.hosts.map fun h =>
        if L.any (fun x => x.hostId = some h.id) then { h with hidden := nh } else h := by
  induction L generalizing db with
  | nil =>
    simp
  | cons a L ih =>
    rw [List.foldl_cons, ih]
    show (updHostHidden db.hosts a.hostId nh).map _ = _
    match ha : a.hostId with
    | none =>
      rw [updHostHidden]
      refine List.map_congr_left fun h _ => ?_
      by_cases hL : L.any (fun x => x.hostId = some h.id)
      all_goals simp [ha, hL]
    | some i =>
      rw [updHostHidden, List.map_map]
      refine List.map_congr_left fun h _ => ?_
      by_cases hih : h.id = i
      · by_cases hL : L.any (fun x => x.hostId = some h.id)
        all_goals simp [Function.comp, ha, hih, hL]
      · have : ¬ (some i = some h.id) := by
          intro hc; exact hih (Option.some.inj hc).symm
        by_cases hL : L.any (fun x => x.hostId = some h.id)
        all_goals simp [Function.comp, ha, hih, this, hL]

/-- Full equational description of a successful `toggleServerHidden`:
the found server is flipped, and the beacon/host columns are rewritten
according to the loop over the server's beacons. -/
theorem toggleServerHidden_eq (db : ProjectDb) (sid : Nat) (s₁ : Server)
    (db₁ : ProjectDb) (h : toggleServerHidden db sid = some (s₁, db₁)) :
    ∃ s₀, db.servers.find? (fun s => s.id = sid) = some s₀ ∧
      s₁ = { s₀ with hidden := !s₀.hidden } ∧
      db₁.servers = db.servers.map
        (fun s => if s.id = sid then { s with hidden := !s₀.hidden } else s) ∧
      db₁.beacons = db.beacons.map
        (fun b => if (db.beacons.filter (fun x => x.serverId = sid)).any
            (fun x => x.id = b.id) then { b with hidden := !s₀.hidden } else b) ∧
      db₁.hosts = db.hosts.map
        (fun h' => if (db.beacons.filter (fun x => x.serverId = sid)).any
            (fun x => x.hostId = some h'.id)
          then { h' with hidden := !s₀.hidden } else h') := by
  unfold toggleServerHidden at h
  cases hfind : db.servers.find? (fun s => s.id = sid) with
  | none => rw [hfind] at h; exact absurd h (by simp)
  | some s₀ =>
    rw [hfind] at h
    refine ⟨s₀, rfl, ?_, ?_, ?_, ?_⟩
    · exact (Prod.mk.injEq .. ▸ Option.some.inj h).1.symm
    · have hdb := (Prod.mk.injEq .. ▸ Option.some.inj h).2
      rw [← hdb]
      simp only [toggleLoop_servers]
    · have hdb := (Prod.mk.injEq .. ▸ Option.some.inj h).2
      rw [← hdb]
      simpa using toggleLoop_beacons (!s₀.hidden)
        (db.beacons.filter (fun x => x.serverId = sid)) db
    · have hdb := (Prod.mk.injEq .. ▸ Option.some.inj h).2
      rw [← hdb]
      simpa using toggleLoop_hosts (!s₀.hidden)
        (db.beacons.filter (fun x => x.serverId = sid)) db

/-- Membership form of `toggleServerHidden_eq`: every stored copy of the
server is flipped, every beacon of the server is set to the new hidden
value, and so is every host referenced by such a beacon. -/
theorem toggleServerHidden_mem_spec (db : ProjectDb) (sid : Nat) (s₁ : Server)
    (db₁ : ProjectDb) (h : toggleServerHidden db sid = some (s₁, db₁)) :
    ∃ s₀, db.servers.find? (fun s => s.id = sid) = some s₀ ∧
      s₁ = { s₀ with hidden := !s₀.hidden } ∧
      (∀ s' ∈ db₁.servers, s'.id = sid → s'.hidden = !s₀.hidden) ∧
      (∀ b' ∈ db₁.beacons, b'.serverId = sid → b'.hidden = !s₀.hidden) ∧
      (∀ h' ∈ db₁.hosts,
        (∃ b ∈ db.beacons, b.serverId = sid ∧ b.hostId = some h'.id) →
        h'.hidden = !s₀.hidden) := by
  obtain ⟨s₀, hfind, hs₁, hsrv, hbea, hhost⟩ :=
    toggleServerHidden_eq db sid s₁ db₁ h
  refine ⟨s₀, hfind, hs₁, ?_, ?_, ?_⟩
  · intro s' hmem hid
    rw [hsrv] at hmem
    obtain ⟨s, _, rfl⟩ := List.mem_map.mp hmem
    by_cases hsid : s.id = sid
    · simp [hsid]
    · simp only [if_neg hsid] at hid ⊢
      exact absurd hid hsid
  · intro b' hmem hbsid
    rw [hbea] at hmem
    obtain ⟨b, hb, rfl⟩ := List.mem_map.mp hmem
    by_cases hc : (db.beacons.filter (fun x => x.serverId = sid)).any
        (fun x => x.id = b.id)
    · simp [hc]
    · exfalso
      simp only [if_neg hc] at hbsid
      exact hc (List.any_eq_true.mpr
        ⟨b, List.mem_filter.mpr ⟨hb, by simp [hbsid]⟩, by simp⟩)
  · intro h' hmem ⟨b, hb, hbsid, hbh⟩
    rw [hhost] at hmem
    obtain ⟨h₀, _, rfl⟩ := List.mem_map.mp hmem
    have hcond : (db.beacons.filter (fun x => x.serverId = sid)).any
        (fun x => x.hostId = some h₀.id) = true := by
      refine List.any_eq_true.mpr
        ⟨b, List.mem_filter.mpr ⟨hb, by simp [hbsid]⟩, ?_⟩
      by_cases hc : (db.beacons.filter (fun x => x.serverId = sid)).any
          (fun x => x.hostId = some h₀.id)
      all_goals simp_all
    simp [hcond]

/-- `find?` by id commutes with mapping an id-preserving function. -/
theorem find?_id_map (l : List Server) (sid : Nat) (f : Server → Server)
    (hf : ∀ s, (f s).id = s.id) :
    (l.map f).find? (fun s => s.id = sid)
      = (l.find? (fun s => s.id = sid)).map f := by
  induction l with
  | nil => rfl
  | cons a l ih =>
    by_cases hpa : a.id = sid
    · rw [List.map_cons, List.find?_cons_of_pos _ (by simp [hf, hpa]),
        List.find?_cons_of_pos _ (by simp [hpa])]
      rfl
    · rw [List.map_cons, List.find?_cons_of_neg _ (by simp [hf, hpa]),
        List.find?_cons_of_neg _ (by simp [hpa]), ih]

end ToggleLemmas

/-- C1: a successful `toggleServerHidden(campaignId, serverId)` flips the
server's hidden flag, and every beacon of that server — and each such
beacon's host — ends with hidden equal to the server's new value
(the loop visits every beacon). -/
theorem toggleServerHidden_propagates (db : ProjectDb) (sid : Nat)
    (s₁ : Server) (db₁ : ProjectDb)
    (h : toggleServerHidden db sid = some (s₁, db₁)) :
    ∃ s₀, db.servers.find? (fun s => s.id = sid) = some s₀ ∧
      s₁.hidden = !s₀.hidden ∧
      (∀ s' ∈ db₁.servers, s'.id = sid → s'.hidden = s₁.hidden) ∧
      (∀ b' ∈ db₁.beacons, b'.serverId = sid → b'.hidden = s₁.hidden) ∧
      (∀ h' ∈ db₁.hosts,
        (∃ b ∈ db.beacons, b.serverId = sid ∧ b.hostId = some h'.id) →
        h'.hidden = s₁.hidden) := by
  obtain ⟨s₀, hfind, hs₁, hsrv, hbea, hhost⟩ :=
    toggleServerHidden_mem_spec db sid s₁ db₁ h
  subst hs₁
  exact ⟨s₀, hfind, rfl, hsrv, hbea, hhost⟩

/-- Example store for the C1 witness: one server with a beacon on a host. -/
def exDb1 : ProjectDb :=
  { servers := [⟨1, "s1", "S One", "/logs", false, none⟩]
    beacons := [⟨10, false, 1, some 20, "b10"⟩]
    hosts := [⟨20, false, "h20", false⟩] }

/-- The store `exDb1` after one toggle of server 1. -/
def exDb1' : ProjectDb :=
  { servers := [⟨1, "s1", "S One", "/logs", true, none⟩]
    beacons := [⟨10, true, 1, some 20, "b10"⟩]
    hosts := [⟨20, true, "h20", false⟩] }

/-- The server returned by the toggle of server 1 in `exDb1`. -/
def exS1 : Server := ⟨1, "s1", "S One", "/logs", true, none⟩

/-- Witness for C1 at a concrete store: the toggle succeeds and the
propagation property holds there. -/
theorem toggleServerHidden_propagates_witness :
    toggleServerHidden exDb1 1 = some (exS1, exDb1') ∧
    (∃ s₀, exDb1.servers.find? (fun s => s.id = 1) = some s₀ ∧
      exS1.hidden = !s₀.hidden ∧
      (∀ s' ∈ exDb1'.servers, s'.id = 1 → s'.hidden = exS1.hidden) ∧
      (∀ b' ∈ exDb1'.beacons, b'.serverId = 1 → b'.hidden = exS1.hidden) ∧
      (∀ h' ∈ exDb1'.hosts,
        (∃ b ∈ exDb1.beacons, b.serverId = 1 ∧ b.hostId = some h'.id) →
        h'.hidden = exS1.hidden)) :=
  ⟨by decide, toggleServerHidden_propagates exDb1 1 exS1 exDb1' (by decide)⟩

/-- Counterexample store for C2: the server is visible but its beacon is
individually hidden, so the beacon's state is not restored by a double
toggle. -/
def exDb2 : ProjectDb :=
  { servers := [⟨1, "s1", "S One", "/logs", false, none⟩]
    beacons := [⟨10, true, 1, none, "b10"⟩]
    hosts := [] }

/-- C2 counterexample: in `exDb2` the single beacon starts with
`hidden = true`; after applying `toggleServerHidden` twice it ends with
`hidden = false`, so the double toggle does not restore the beacon's
original hidden flag. -/
theorem toggleServerHidden_twice_not_involutive :
    exDb2.beacons.map (fun b => b.hidden) = [true] ∧
    ((toggleServerHidden exDb2 1).bind fun p => toggleServerHidden p.2 1).map
        (fun p => p.2.beacons.map fun b => b.hidden) = some [false] := by
  decide

/-- C2 (amended): applying `toggleServerHidden` twice restores the
server's hidden flag to its original value, and leaves every beacon of the
server — and each such beacon's host — with hidden equal to the server's
original value (so their own original flags are restored exactly when they
initially agreed with the server's). -/
theorem toggleServerHidden_twice_restores (db : ProjectDb) (sid : Nat)
    (s₁ s₂ : Server) (db₁ db₂ : ProjectDb)
    (h₁ : toggleServerHidden db sid = some (s₁, db₁))
    (h₂ : toggleServerHidden db₁ sid = some (s₂, db₂)) :
    ∃ s₀, db.servers.find? (fun s => s.id = sid) = some s₀ ∧
      s₂.hidden = s₀.hidden ∧
      (∀ s' ∈ db₂.servers, s'.id = sid → s'.hidden = s₀.hidden) ∧
      (∀ b' ∈ db₂.beacons, b'.serverId = sid → b'.hidden = s₀.hidden) ∧
      (∀ h' ∈ db₂.hosts,
        (∃ b ∈ db.beacons, b.serverId = sid ∧ b.hostId = some h'.id) →
        h'.hidden = s₀.hidden) := by
  obtain ⟨s₀, hfind₁, hs₁, hsrv₁, hbea₁, hhost₁⟩ :=
    toggleServerHidden_eq db sid s₁ db₁ h₁
  obtain ⟨s₀', hfind₂, hs₂, hsrv₂, hbea₂, hhost₂⟩ :=
    toggleServerHidden_mem_spec db₁ sid s₂ db₂ h₂
  have hs₀id : s₀.id = sid := by simpa using List.find?_some hfind₁
  have hfpres : ∀ s : Server,
      ((fun s => if s.id = sid then { s with hidden := !s₀.hidden } else s) s).id
        = s.id := by
    intro s; by_cases hc : s.id = sid <;> simp [hc]
  have hfind₁' : db₁.servers.find? (fun s => s.id = sid)
      = some { s₀ with hidden := !s₀.hidden } := by
    rw [hsrv₁, find?_id_map _ _ _ hfpres, hfind₁]
    simp [hs₀id]
  have hs₀' : s₀' = { s₀ with hidden := !s₀.hidden } := by
    rw [hfind₁'] at hfind₂
    exact (Option.some.inj hfind₂).symm
  have hflip : (!s₀'.hidden) = s₀.hidden := by rw [hs₀']; simp
  refine ⟨s₀, hfind₁, ?_, ?_, ?_, ?_⟩
  · rw [hs₂, ← hflip]
  · intro s' hmem hid
    rw [← hflip]; exact hsrv₂ s' hmem hid
  · intro b' hmem hid
    rw [← hflip]; exact hbea₂ b' hmem hid
  · intro h' hmem ⟨b, hb, hbsid, hbh⟩
    rw [← hflip]
    refine hhost₂ h' hmem ?_
    refine ⟨(fun b => if (db.beacons.filter fun x => x.serverId = sid).any
        (fun x => x.id = b.id) then { b with hidden := !s₀.hidden } else b) b,
      ?_, ?_, ?_⟩
    · rw [hbea₁]; exact List.mem_map_of_mem _ hb
    · by_cases hc : (db.beacons.filter fun x => x.serverId = sid).any
          (fun x => x.id = b.id) <;> simp [hc, hbsid]
    · by_cases hc : (db.beacons.filter fun x => x.serverId = sid).any
          (fun x => x.id = b.id) <;> simp [hc, hbh]

/-- Witness for the amended C2 at a concrete store: the double toggle of
`exDb1` succeeds and the restoration property holds there. -/
theorem toggleServerHidden_twice_restores_witness :
    toggleServerHidden exDb1 1 = some (exS1, exDb1') ∧
    toggleServerHidden exDb1' 1 = some (⟨1, "s1", "S One", "/logs", false, none⟩, exDb1) ∧
    (∃ s₀, exDb1.servers.find? (fun s => s.id = 1) = some s₀ ∧
      (⟨1, "s1", "S One", "/logs", false, none⟩ : Server).hidden = s₀.hidden ∧
      (∀ s' ∈ exDb1.servers, s'.id = 1 → s'.hidden = s₀.hidden) ∧
      (∀ b' ∈ exDb1.beacons, b'.serverId = 1 → b'.hidden = s₀.hidden) ∧
      (∀ h' ∈ exDb1.hosts,
        (∃ b ∈ exDb1.beacons, b.serverId = 1 ∧ b.hostId = some h'.id) →
        h'.hidden = s₀.hidden)) :=
  ⟨by decide, by decide,
    toggleServerHidden_twice_restores exDb1 1 exS1
      ⟨1, "s1", "S One", "/logs", false, none⟩ exDb1' exDb1
      (by decide) (by decide)⟩

/-- A result row of the `servers` query: a server together with the
beacons loaded by `server.beacons.init({ where })`. -/
structure ServerResult where
  server : Server
  loadedBeacons : List Beacon
  deriving Repr, DecidableEq

/-- The project-store part of `servers(campaignId, username, hidden)`:
when `hidden` is false the find filter is
`{ hidden: false, beacons: { hidden: false } }` — the server itself must
be visible and the relation condition requires at least one visible
beacon — and `beacons.init({ where: { hidden: false } })` reloads only the
server's visible beacons; when `hidden` is true both filters are empty.
(The main-store bookkeeping — operator creation and the best-effort
`lastOpenedBy` update — happens on a different store and does not affect
the returned list.) -/
def serversQuery (db : ProjectDb) (hidden : Bool) : List ServerResult :=
  let found :=
    if !hidden then
      db.servers.filter fun s =>
        s.hidden = hidden &&
          db.beacons.any fun b => b.serverId = s.id && b.hidden = hidden
    else db.servers
  found.map fun s =>
    { server := s
      loadedBeacons :=
        if !hidden then
          db.beacons.filter fun b => b.serverId = s.id && b.hidden = hidden
        else
          db.beacons.filter fun b => b.serverId = s.id }

/-- C3: `servers(campaignId, username, hidden=false)` returns no server
with `hidden = true` and no loaded beacon with `hidden = true`. -/
theorem serversQuery_no_hidden (db : ProjectDb) (r : ServerResult)
    (hr : r ∈ serversQuery db false) :
    r.server.hidden = false ∧ ∀ b ∈ r.loadedBeacons, b.hidden = false := by
  unfold serversQuery at hr
  simp only [Bool.not_false, if_pos rfl] at hr
  obtain ⟨s, hs, rfl⟩ := List.mem_map.mp hr
  constructor
  · have hc := (List.mem_filter.mp hs).2
    simp only [Bool.and_eq_true, decide_eq_true_eq] at hc
    exact hc.1
  · intro b hb
    simp only at hb
    have hc := (List.mem_filter.mp hb).2
    simp only [Bool.and_eq_true, decide_eq_true_eq] at hc
    exact hc.2

/-- Example store for the C3 witness: one visible server with one visible
beacon. -/
def exDb3 : ProjectDb :=
  { servers := [⟨1, "s1", "S One", "/logs", false, none⟩]
    beacons := [⟨10, false, 1, some 20, "b10"⟩]
    hosts := [⟨20, false, "h20", false⟩] }

/-- Witness for C3 at a concrete store and result row. -/
theorem serversQuery_no_hidden_witness :
    (⟨⟨1, "s1", "S One", "/logs", false, none⟩,
        [⟨10, false, 1, some 20, "b10"⟩]⟩ : ServerResult) ∈ serversQuery exDb3 false ∧
    ((⟨⟨1, "s1", "S One", "/logs", false, none⟩,
        [⟨10, false, 1, some 20, "b10"⟩]⟩ : ServerResult).server.hidden = false ∧
      ∀ b ∈ (⟨⟨1, "s1", "S One", "/logs", false, none⟩,
        [⟨10, false, 1, some 20, "b10"⟩]⟩ : ServerResult).loadedBeacons,
        b.hidden = false) :=
  ⟨by decide, serversQuery_no_hidden exDb3 _ (by decide)⟩

/-- C10: a server whose own hidden flag is false but that has no visible
beacon is omitted from `servers(hidden=false)` — the relation condition
`beacons: { hidden: false }` requires at least one matching beacon. -/
theorem serversQuery_omits_beaconless (db : ProjectDb) (s : Server)
    (hs : s ∈ db.servers) (hvis : s.hidden = false)
    (hnob : ∀ b ∈ db.beacons, b.serverId = s.id → b.hidden = true) :
    ∀ r ∈ serversQuery db false, r.server ≠ s := by
  intro r hr hrs
  unfold serversQuery at hr
  simp only [Bool.not_false, if_pos rfl] at hr
  obtain ⟨s', hs', hmap⟩ := List.mem_map.mp hr
  have hss' : s' = s := by rw [← hrs, ← hmap]
  subst hss'
  have hcond := (List.mem_filter.mp hs').2
  simp only [Bool.and_eq_true, List.any_eq_true, decide_eq_true_eq] at hcond
  obtain ⟨-, b, hb, hbsid, hbhid⟩ := hcond
  have := hnob b hb hbsid
  rw [this] at hbhid
  exact Bool.true_eq_false.mp hbhid

/-- Example store for the C10 witness: a visible server whose only beacon
is hidden. -/
def exDb10 : ProjectDb :=
  { servers := [⟨1, "s1", "S One", "/logs", false, none⟩]
    beacons := [⟨10, true, 1, none, "b10"⟩]
    hosts := [] }

/-- Witness for C10 at a concrete store: the visible-but-beaconless server
is not in the query result. -/
theorem serversQuery_omits_beaconless_witness :
    (⟨1, "s1", "S One", "/logs", false, none⟩ : Server) ∈ exDb10.servers ∧
    (⟨1, "s1", "S One", "/logs", false, none⟩ : Server).hidden = false ∧
    (∀ r ∈ serversQuery exDb10 false,
      r.server ≠ ⟨1, "s1", "S One", "/logs", false, none⟩) :=
  ⟨by decide, by decide,
    serversQuery_omits_beaconless exDb10 ⟨1, "s1", "S One", "/logs", false, none⟩
      (by decide) (by decide) (by decide)⟩

/-- The GraphQL `ServerUpdateInput`: three nullable string fields. -/
structure ServerUpdateInput where
  parsingPath : Option String
  name : Option String
  displayName : Option String
  deriving Repr, DecidableEq

/-- One guarded assignment `if (v) server.f = v` of `serverUpdate`:
JavaScript truthiness means the field is applied only when present and
non-empty. -/
def applyStrField (v : Option String) (cur : String) : String :=
  match v with
  | some x => if x.isEmpty then cur else x
  | none => cur

/-- `serverUpdate(campaignId, serverId, input)`: load the server
(`findOneOrFail`, no relation population), apply each provided non-empty
field (the three guarded assignments touch distinct fields, so they are
modelled as independent updates), persist, and return the server. -/
def serverUpdate (db : ProjectDb) (serverId : Nat) (input : ServerUpdateInput) :
    Option (Server × ProjectDb) :=
  match db.servers.find? (fun s => s.id = serverId) with
  | none => none
  | some server =>
    let server' :=
      { server with
        parsingPath := applyStrField input.parsingPath server.parsingPath
        name := applyStrField input.name server.name
        displayName := applyStrField input.displayName server.displayName }
    some (server',
      { db with
        servers := db.servers.map fun s =>
          if s.id = serverId then server' else s })

/-- C4: `serverUpdate` leaves every field untouched when the input does
not supply it, and sets a supplied non-empty field to the supplied value;
all fields outside the input type (id, hidden, meta.type) are untouched. -/
theorem serverUpdate_frame (db : ProjectDb) (sid : Nat)
    (input : ServerUpdateInput) (s' : Server) (db' : ProjectDb)
    (h : serverUpdate db sid input = some (s', db')) :
    ∃ s₀, db.servers.find? (fun s => s.id = sid) = some s₀ ∧
      (input.parsingPath = none → s'.parsingPath = s₀.parsingPath) ∧
      (input.name = none → s'.name = s₀.name) ∧
      (input.displayName = none → s'.displayName = s₀.displayName) ∧
      (∀ x, input.name = some x → x.isEmpty = false → s'.name = x) ∧
      s'.id = s₀.id ∧ s'.hidden = s₀.hidden ∧ s'.metaType = s₀.metaType := by
  unfold serverUpdate at h
  cases hfind : db.servers.find? (fun s => s.id = sid) with
  | none => rw [hfind] at h; exact absurd h (by simp)
  | some s₀ =>
    rw [hfind] at h
    have hs' := (Prod.mk.injEq .. ▸ Option.some.inj h).1.symm
    subst hs'
    refine ⟨s₀, rfl, ?_, ?_, ?_, ?_, rfl, rfl, rfl⟩
    · intro hpp; simp [applyStrField, hpp]
    · intro hn; simp [applyStrField, hn]
    · intro hd; simp [applyStrField, hd]
    · intro x hx hne; simp [applyStrField, hx, hne]

/-- Example store for the C4 witness: the server of the spec's example,
with name "A", displayName "B", parsingPath "C". -/
def exDb4 : ProjectDb :=
  { servers := [⟨1, "A", "B", "C", false, none⟩]
    beacons := []
    hosts := [] }

/-- Witness for C4 at the spec's example: updating with only
`{name:"X"}` yields name "X", displayName "B", parsingPath "C". -/
theorem serverUpdate_frame_witness :
    serverUpdate exDb4 1 ⟨none, some "X", none⟩
      = some (⟨1, "X", "B", "C", false, none⟩,
          { servers := [⟨1, "X", "B", "C", false, none⟩], beacons := [], hosts := [] }) ∧
    (∃ s₀, exDb4.servers.find? (fun s => s.id = 1) = some s₀ ∧
      ((⟨none, some "X", none⟩ : ServerUpdateInput).parsingPath = none →
        (⟨1, "X", "B", "C", false, none⟩ : Server).parsingPath = s₀.parsingPath) ∧
      ((⟨none, some "X", none⟩ : ServerUpdateInput).name = none →
        (⟨1, "X", "B", "C", false, none⟩ : Server).name = s₀.name) ∧
      ((⟨none, some "X", none⟩ : ServerUpdateInput).displayName = none →
        (⟨1, "X", "B", "C", false, none⟩ : Server).displayName = s₀.displayName) ∧
      (∀ x, (⟨none, some "X", none⟩ : ServerUpdateInput).name = some x →
        x.isEmpty = false → (⟨1, "X", "B", "C", false, none⟩ : Server).name = x) ∧
      (⟨1, "X", "B", "C", false, none⟩ : Server).id = s₀.id ∧
      (⟨1, "X", "B", "C", false, none⟩ : Server).hidden = s₀.hidden ∧
      (⟨1, "X", "B", "C", false, none⟩ : Server).metaType = s₀.metaType) :=
  ⟨by decide,
    serverUpdate_frame exDb4 1 ⟨none, some "X", none⟩
      ⟨1, "X", "B", "C", false, none⟩
      { servers := [⟨1, "X", "B", "C", false, none⟩], beacons := [], hosts := [] }
      (by decide)⟩

/-- `updateServerMetadata(campaignId, serverId, serverDisplayName?,
serverType?)`: load the server (`findOneOrFail`); when a non-empty
`serverDisplayName` is given, set it on the server and propagate it via
`nativeUpdate` to beacons of this server whose host is a
cobalt-strike-server host, and to cobalt-strike-server hosts having a
beacon on this server; when a (non-empty) `serverType` is given, set
`server.meta.type`; persist and return the server.  The source guards the
displayName block with one `if (serverDisplayName)`, modelled here by the
same guard repeated for the server, beacon and host effects. -/
def updateServerMetadata (db : ProjectDb) (serverId : Nat)
    (serverDisplayName : Option String) (serverType : Option String) :
    Option (Server × ProjectDb) :=
  match db.servers.find? (fun s => s.id = serverId) with
  | none => none
  | some server =>
    let server1 :=
      match serverDisplayName with
      | some d => if d.isEmpty then server else { server with displayName := d }
      | none => server
    let beacons1 :=
      match serverDisplayName with
      | some d =>
        if d.isEmpty then db.beacons
        else db.beacons.map fun b =>
          if b.serverId = serverId &&
              db.hosts.any (fun h => b.hostId = some h.id && h.cobaltStrikeServer)
          then { b with displayName := d } else b
      | none => db.beacons
    let hosts1 :=
      match serverDisplayName with
      | some d =>
        if d.isEmpty then db.hosts
        else db.hosts.map fun h =>
          if h.cobaltStrikeServer &&
              db.beacons.any (fun b => b.hostId = some h.id && b.serverId = serverId)
          then { h with displayName := d } else h
      | none => db.hosts
    let server2 :=
      match serverType with
      | some t => if t.isEmpty then server1 else { server1 with metaType := some t }
      | none => server1
    some (server2,
      { servers := db.servers.map fun s => if s.id = serverId then server2 else s
        beacons := beacons1
        hosts := hosts1 })

/-- C5: `updateServerMetadata` with no `serverDisplayName` leaves the
server's displayName and every beacon and host row unchanged, and with no
`serverType` leaves the server's `meta.type` unchanged. -/
theorem updateServerMetadata_frame (db : ProjectDb) (sid : Nat)
    (dn ty : Option String) (s' : Server) (db' : ProjectDb)
    (h : updateServerMetadata db sid dn ty = some (s', db')) :
    ∃ s₀, db.servers.find? (fun s => s.id = sid) = some s₀ ∧
      (dn = none → s'.displayName = s₀.displayName ∧
        db'.beacons = db.beacons ∧ db'.hosts = db.hosts) ∧
      (ty = none → s'.metaType = s₀.metaType) := by
  unfold updateServerMetadata at h
  cases hfind : db.servers.find? (fun s => s.id = sid) with
  | none => rw [hfind] at h; exact absurd h (by simp)
  | some s₀ =>
    rw [hfind] at h
    have hs' := (Prod.mk.injEq .. ▸ Option.some.inj h).1.symm
    have hdb' := (Prod.mk.injEq .. ▸ Option.some.inj h).2
    refine ⟨s₀, rfl, ?_, ?_⟩
    · intro hdn
      subst hdn
      refine ⟨?_, ?_, ?_⟩
      · rw [hs']
        cases hty : ty with
        | none => simp
        | some t =>
          by_cases hte : t.isEmpty
          all_goals simp [hte]
      · rw [← hdb']
      · rw [← hdb']
    · intro hty
      subst hty
      rw [hs']
      cases hdn : dn with
      | none => simp
      | some d =>
        by_cases hde : d.isEmpty
        all_goals simp [hde]

/-- Example store for the C5 witness: a server with a cobalt-strike host
and beacon, so both propagation paths are exercised by the frame. -/
def exDb5 : ProjectDb :=
  { servers := [⟨1, "s1", "Display", "/logs", false, some "cobaltstrike"⟩]
    beacons := [⟨10, false, 1, some 20, "Display"⟩]
    hosts := [⟨20, false, "Display", true⟩] }

/-- Witness for C5 at a concrete store: calling with only `serverType`
leaves all displayNames and the beacon/host rows unchanged. -/
theorem updateServerMetadata_frame_witness :
    updateServerMetadata exDb5 1 none (some "smb")
      = some (⟨1, "s1", "Display", "/logs", false, some "smb"⟩,
          { servers := [⟨1, "s1", "Display", "/logs", false, some "smb"⟩]
            beacons := [⟨10, false, 1, some 20, "Display"⟩]
            hosts := [⟨20, false, "Display", true⟩] }) ∧
    (∃ s₀, exDb5.servers.find? (fun s => s.id = 1) = some s₀ ∧
      ((none : Option String) = none →
        (⟨1, "s1", "Display", "/logs", false, some "smb"⟩ : Server).displayName
            = s₀.displayName ∧
        ({ servers := [⟨1, "s1", "Display", "/logs", false, some "smb"⟩]
           beacons := [⟨10, false, 1, some 20, "Display"⟩]
           hosts := [⟨20, false, "Display", true⟩] } : ProjectDb).beacons
            = exDb5.beacons ∧
        ({ servers := [⟨1, "s1", "Display", "/logs", false, some "smb"⟩]
           beacons := [⟨10, false, 1, some 20, "Display"⟩]
           hosts := [⟨20, false, "Display", true⟩] } : ProjectDb).hosts
            = exDb5.hosts) ∧
      ((some "smb" : Option String) = none →
        (⟨1, "s1", "Display", "/logs", false, some "smb"⟩ : Server).metaType
            = s₀.metaType)) :=
  ⟨by decide,
    updateServerMetadata_frame exDb5 1 none (some "smb")
      ⟨1, "s1", "Display", "/logs", false, some "smb"⟩
      { servers := [⟨1, "s1", "Display", "/logs", false, some "smb"⟩]
        beacons := [⟨10, false, 1, some 20, "Display"⟩]
        hosts := [⟨20, false, "Display", true⟩] }
      (by decide)⟩

/-! ## The parser file-validation HTTP endpoint -/

/-- An uploaded file, identified by its client-supplied path-like name. -/
structure UploadedFile where
  name : String
  deriving Repr, DecidableEq

/-- `req.files.file`: either a single uploaded file or an array of them. -/
inductive FilesField
  | one (f : UploadedFile)
  | many (fs : List UploadedFile)
  deriving Repr, DecidableEq

/-- `!Array.isArray(req.files.file) ? [req.files.file] : req.files.file`. -/
def FilesField.toList : FilesField → List UploadedFile
  | .one f => [f]
  | .many fs => fs

/-- A `POST /parser/:parserName/validate-files` request: the route
parameter and the (possibly absent) upload payload. -/
structure ParserRequest where
  parserName : String
  files : Option FilesField
  deriving Repr, DecidableEq

/-- The file-system and subprocess actions the endpoint performs, in
order. -/
inductive ParserEvent
  | mkTempDir (dir : String)
  | moveFile (dest : String)
  | invokeParserTool (name : String) (args : List String)
  | rmTempDir (dir : String)
  deriving Repr, DecidableEq

/-- A response body: an `{msg}` error object or the parser tool's
payload. -/
inductive ResponseBody (α : Type)
  | errMsg (msg : String)
  | payload (v : α)
  deriving Repr, DecidableEq

/-- An HTTP response with its status code. -/
structure HttpResponse (α : Type) where
  status : Nat
  body : ResponseBody α
  deriving Repr, DecidableEq

/-- Modelled from the spec: `withTempDir` (imported from `../util`, whose
source is not in this snapshot) creates a fresh temporary directory, runs
the body with the directory's path, and removes the directory afterwards
regardless of the body's success or failure; the body's outcome (value or
error) is passed through. -/
def withTempDir (dir : String)
    (body : String → Except String α × List ParserEvent) :
    Except String α × List ParserEvent :=
  let (r, evs) := body dir
  (r, ParserEvent.mkTempDir dir :: evs ++ [ParserEvent.rmTempDir dir])

/-- The ASCII characters matched by the JavaScript regex class `\s`. -/
def isJsWhitespace (c : Char) : Bool :=
  c = ' ' || c = '\t' || c = '\n' || c = '\r' || c = '\x0b' || c = '\x0c'

/-- Worker for `escapeWhitespace`; the flag records whether the previous
character was whitespace (i.e. whether we are inside a `\s+` run). -/
def escapeWsAux : Bool → List Char → List Char
  | _, [] => []
  | prevWs, c :: cs =>
    if isJsWhitespace c then
      if prevWs then c :: escapeWsAux true cs
      else '\\' :: c :: escapeWsAux true cs
    else c :: escapeWsAux false cs

/-- `.replace(/(\s+)/g, '\\$1')`: prefix every maximal whitespace run
with a backslash. -/
def escapeWhitespace (s : String) : String := ⟨escapeWsAux false s.data⟩

/-- `.replace(/:/gi, '/')`: turn every colon into a slash. -/
def replaceColons (s : String) : String :=
  ⟨s.data.map fun c => if c = ':' then '/' else c⟩

/-- `.split('/')[0]`: the prefix of the name before its first slash. -/
def firstSegment (s : String) : String := ⟨s.data.takeWhile fun c => c ≠ '/'⟩

/-- `path.join(dir, rel)` for a relative path `rel` under `dir`. -/
def pathJoin (a b : String) : String := a ++ "/" ++ b

/-- The `POST /parser/:parserName/validate-files` handler.  Unknown
parser name → 400 `{msg}`; missing upload payload → 500 `{msg}`;
otherwise the files are staged under a fresh temporary directory at their
colon-normalized names, the external parser tool is invoked in
`validate-files` mode on the first file's root directory (whitespace
escaped), and its report is sent back.  The external tool is a
collaborator, passed in as `invokeParserTool`; the returned list records
the file-system/subprocess actions in order. -/
def parserFileValidation (knownParsers : List String)
    (invokeParserTool : String → List String → Except String α)
    (tmpDir : String) (req : ParserRequest) :
    Except String (HttpResponse α) × List ParserEvent :=
  if req.parserName ∉ knownParsers then
    (.ok ⟨400, .errMsg ("Parser " ++ req.parserName ++ " is not available")⟩, [])
  else
    match req.files with
    | none => (.ok ⟨500, .errMsg "No files provided"⟩, [])
    | some ff =>
      let files := ff.toList
      let r := withTempDir tmpDir fun dir =>
        match files with
        | [] => (.error "TypeError: files[0] is undefined", [])
        | f₀ :: _ =>
          let folderArg :=
            escapeWhitespace (pathJoin dir (firstSegment (replaceColons f₀.name)))
          (invokeParserTool req.parserName ["validate-files", "--folder", folderArg],
           (files.map fun f => ParserEvent.moveFile (pathJoin dir (replaceColons f.name)))
             ++ [ParserEvent.invokeParserTool req.parserName
                  ["validate-files", "--folder", folderArg]])
      match r.1 with
      | .ok v => (.ok ⟨200, .payload v⟩, r.2)
      | .error e => (.error e, r.2)

/-- C6: an unknown parser name yields a 400 response with
`{msg: 'Parser <name> is not available'}`, and a known parser with no
uploaded files yields a 500 response with `{msg: 'No files provided'}`;
in both cases the action trace is empty, so the external parser tool is
never invoked. -/
theorem parserFileValidation_error_responses {α : Type}
    (knownParsers : List String)
    (invoke : String → List String → Except String α)
    (tmpDir : String) (req : ParserRequest) :
    (req.parserName ∉ knownParsers →
      parserFileValidation knownParsers invoke tmpDir req
        = (.ok ⟨400, .errMsg ("Parser " ++ req.parserName ++ " is not available")⟩,
            [])) ∧
    (req.parserName ∈ knownParsers → req.files = none →
      parserFileValidation knownParsers invoke tmpDir req
        = (.ok ⟨500, .errMsg "No files provided"⟩, [])) := by
  constructor
  · intro hk
    unfold parserFileValidation
    rw [if_pos hk]
  · intro hk hf
    unfold parserFileValidation
    rw [if_neg (by simpa using hk), hf]

/-- Witness for C6: both error responses at concrete requests. -/
theorem parserFileValidation_error_responses_witness :
    ("nmap" ∉ ["brute-ratel-parser"] ∧
      parserFileValidation ["brute-ratel-parser"]
          (fun _ _ => Except.ok (0 : Nat)) "/tmp/t" ⟨"nmap", none⟩
        = (.ok ⟨400, .errMsg "Parser nmap is not available"⟩, [])) ∧
    ("brute-ratel-parser" ∈ ["brute-ratel-parser"] ∧
      parserFileValidation ["brute-ratel-parser"]
          (fun _ _ => Except.ok (0 : Nat)) "/tmp/t" ⟨"brute-ratel-parser", none⟩
        = (.ok ⟨500, .errMsg "No files provided"⟩, [])) :=
  ⟨⟨by decide,
      (parserFileValidation_error_responses ["brute-ratel-parser"]
        (fun _ _ => Except.ok (0 : Nat)) "/tmp/t" ⟨"nmap", none⟩).1 (by decide)⟩,
    ⟨by decide,
      (parserFileValidation_error_responses ["brute-ratel-parser"]
        (fun _ _ => Except.ok (0 : Nat)) "/tmp/t" ⟨"brute-ratel-parser", none⟩).2
        (by decide) rfl⟩⟩

/-- C7: once a request reaches the file-staging step, the action trace is
one `mkTempDir` first, one `rmTempDir` last, and nothing in between
creates or removes a directory — for every parser outcome (`invoke` is
universally quantified, covering success and failure) and also when the
body itself fails (empty staged-file list). -/
theorem parserFileValidation_tempdir_scoped {α : Type}
    (knownParsers : List String)
    (invoke : String → List String → Except String α)
    (tmpDir : String) (req : ParserRequest) (ff : FilesField)
    (hk : req.parserName ∈ knownParsers) (hf : req.files = some ff) :
    ∃ inner,
      (parserFileValidation knownParsers invoke tmpDir req).2
        = ParserEvent.mkTempDir tmpDir :: (inner ++ [ParserEvent.rmTempDir tmpDir]) ∧
      ∀ e ∈ inner, (∀ d, e ≠ ParserEvent.mkTempDir d) ∧
        (∀ d, e ≠ ParserEvent.rmTempDir d) := by
  unfold parserFileValidation
  rw [if_neg (by simpa using hk), hf]
  cases hl : ff.toList with
  | nil =>
    refine ⟨[], ?_, by simp⟩
    simp [withTempDir, hl]
  | cons f₀ fs =>
    refine ⟨(f₀ :: fs).map
        (fun f => ParserEvent.moveFile (pathJoin tmpDir (replaceColons f.name)))
      ++ [ParserEvent.invokeParserTool req.parserName
            ["validate-files", "--folder",
              escapeWhitespace (pathJoin tmpDir (firstSegment (replaceColons f₀.name)))]],
      ?_, ?_⟩
    · cases hi : invoke req.parserName
          ["validate-files", "--folder",
            escapeWhitespace (pathJoin tmpDir (firstSegment (replaceColons f₀.name)))] with
      | ok v => simp [withTempDir, hl, hi]
      | error e => simp [withTempDir, hl, hi]
    · intro e he
      rcases List.mem_append.mp he with hmv | hinv
      · obtain ⟨f, -, rfl⟩ := List.mem_map.mp hmv
        exact ⟨fun d => by simp, fun d => by simp⟩
      · rw [List.mem_singleton.mp hinv]
        exact ⟨fun d => by simp, fun d => by simp⟩

/-- Witness for C7 at a concrete staged request. -/
theorem parserFileValidation_tempdir_scoped_witness :
    "p" ∈ ["p"] ∧
    (⟨"p", some (FilesField.many [⟨"root:a.log"⟩])⟩ : ParserRequest).files
      = some (FilesField.many [⟨"root:a.log"⟩]) ∧
    (∃ inner,
      (parserFileValidation ["p"] (fun _ _ => Except.ok (0 : Nat)) "/tmp/t"
          ⟨"p", some (FilesField.many [⟨"root:a.log"⟩])⟩).2
        = ParserEvent.mkTempDir "/tmp/t" :: (inner ++ [ParserEvent.rmTempDir "/tmp/t"]) ∧
      ∀ e ∈ inner, (∀ d, e ≠ ParserEvent.mkTempDir d) ∧
        (∀ d, e ≠ ParserEvent.rmTempDir d)) :=
  ⟨by decide, rfl,
    parserFileValidation_tempdir_scoped ["p"] (fun _ _ => Except.ok (0 : Nat))
      "/tmp/t" ⟨"p", some (FilesField.many [⟨"root:a.log"⟩])⟩
      (FilesField.many [⟨"root:a.log"⟩]) (by decide) rfl⟩

/-- C8: with a known parser and a non-empty upload whose normalized names
share the root directory `root`, the endpoint stages every file at its
colon-normalized name under the fresh temporary directory, invokes the
parser tool in `validate-files` mode with `--folder` pointing at the
whitespace-escaped root directory, and — when the tool succeeds — sends
the tool's report back as the response body. -/
theorem parserFileValidation_staging {α : Type}
    (knownParsers : List String)
    (invoke : String → List String → Except String α)
    (tmpDir : String) (req : ParserRequest) (ff : FilesField)
    (f₀ : UploadedFile) (fs : List UploadedFile) (root : String)
    (hk : req.parserName ∈ knownParsers) (hf : req.files = some ff)
    (hl : ff.toList = f₀ :: fs)
    (hroot : ∀ f ∈ ff.toList, firstSegment (replaceColons f.name) = root) :
    (parserFileValidation knownParsers invoke tmpDir req).2
      = ParserEvent.mkTempDir tmpDir
        :: ((((f₀ :: fs).map fun f =>
              ParserEvent.moveFile (pathJoin tmpDir (replaceColons f.name)))
            ++ [ParserEvent.invokeParserTool req.parserName
                  ["validate-files", "--folder",
                    escapeWhitespace (pathJoin tmpDir root)]])
          ++ [ParserEvent.rmTempDir tmpDir]) ∧
    ∀ v, invoke req.parserName
        ["validate-files", "--folder", escapeWhitespace (pathJoin tmpDir root)]
          = .ok v →
      (parserFileValidation knownParsers invoke tmpDir req).1
        = .ok ⟨200, .payload v⟩ := by
  have hr : firstSegment (replaceColons f₀.name) = root :=
    hroot f₀ (by rw [hl]; exact List.mem_cons_self f₀ fs)
  constructor
  · unfold parserFileValidation
    rw [if_neg (by simpa using hk), hf]
    cases hi : invoke req.parserName
        ["validate-files", "--folder",
          escapeWhitespace (pathJoin tmpDir (firstSegment (replaceColons f₀.name)))] with
    | ok v => rw [hr] at hi; simp [withTempDir, hl, hi, hr]
    | error e => rw [hr] at hi; simp [withTempDir, hl, hi, hr]
  · intro v hv
    unfold parserFileValidation
    rw [if_neg (by simpa using hk), hf]
    simp [withTempDir, hl, hr, hv]

/-- Witness for C8 at a concrete staged request with two files sharing
the root directory `root dir` (which exercises whitespace escaping). -/
theorem parserFileValidation_staging_witness :
    "p" ∈ ["p"] ∧
    (⟨"p", some (FilesField.many [⟨"root dir:a.log"⟩, ⟨"root dir:b.log"⟩])⟩
        : ParserRequest).files
      = some (FilesField.many [⟨"root dir:a.log"⟩, ⟨"root dir:b.log"⟩]) ∧
    (FilesField.many [⟨"root dir:a.log"⟩, ⟨"root dir:b.log"⟩]).toList
      = ⟨"root dir:a.log"⟩ :: [⟨"root dir:b.log"⟩] ∧
    (∀ f ∈ (FilesField.many [⟨"root dir:a.log"⟩, ⟨"root dir:b.log"⟩]).toList,
      firstSegment (replaceColons f.name) = "root dir") ∧
    ((parserFileValidation ["p"] (fun _ _ => (Except.ok 42 : Except String Nat)) "/tmp/t"
        ⟨"p", some (FilesField.many [⟨"root dir:a.log"⟩, ⟨"root dir:b.log"⟩])⟩).2
      = ParserEvent.mkTempDir "/tmp/t"
        :: ((((⟨"root dir:a.log"⟩ :: [⟨"root dir:b.log"⟩]).map
              fun f : UploadedFile =>
                ParserEvent.moveFile (pathJoin "/tmp/t" (replaceColons f.name)))
            ++ [ParserEvent.invokeParserTool "p"
                  ["validate-files", "--folder",
                    escapeWhitespace (pathJoin "/tmp/t" "root dir")]])
          ++ [ParserEvent.rmTempDir "/tmp/t"]) ∧
    ∀ v, (fun _ _ => (Except.ok 42 : Except String Nat)) "p"
        ["validate-files", "--folder", escapeWhitespace (pathJoin "/tmp/t" "root dir")]
          = Except.ok v →
      (parserFileValidation ["p"] (fun _ _ => (Except.ok 42 : Except String Nat)) "/tmp/t"
        ⟨"p", some (FilesField.many [⟨"root dir:a.log"⟩, ⟨"root dir:b.log"⟩])⟩).1
        = .ok ⟨200, .payload v⟩) :=
  ⟨by decide, rfl, rfl, by decide,
    parserFileValidation_staging ["p"] (fun _ _ => (Except.ok 42 : Except String Nat)) "/tmp/t"
      ⟨"p", some (FilesField.many [⟨"root dir:a.log"⟩, ⟨"root dir:b.log"⟩])⟩
      (FilesField.many [⟨"root dir:a.log"⟩, ⟨"root dir:b.log"⟩])
      ⟨"root dir:a.log"⟩ [⟨"root dir:b.log"⟩] "root dir"
      (by decide) rfl rfl (by decide)⟩

/-! ## The `CommentsList` presentation component -/

/-- A `PresentationItemModel` as consumed by `CommentsList`: id, key and
the two counters. -/
structure PresentationItem where
  id : String
  key : String
  commandCount : Nat
  count : Nat
  deriving Repr, DecidableEq

/-- The four Carbon icons the row can show. -/
inductive RowIcon
  | starFilled
  | playlist
  | user
  | hashtag
  deriving Repr, DecidableEq

/-- `getIcon(itemId)`: star for `"favorited"`, playlist for
`"procedural"`, person for a `"user-"` prefix, hash otherwise. -/
def getIcon (itemId : String) : RowIcon :=
  if itemId = "favorited" then .starFilled
  else if itemId = "procedural" then .playlist
  else if itemId.take 5 = "user-" then .user
  else .hashtag

/-- `rowTitle(presentationItem)`: strip a leading `'#'`, else a leading
`"user-"`, else show the key unchanged. -/
def rowTitle (item : PresentationItem) : String :=
  if item.key.take 1 = "#" then item.key.drop 1
  else if item.key.take 5 = "user-" then item.key.drop 5
  else item.key

/-- What one `InfoRow` of the virtualized list shows for an item: the
leading type icon (absent exactly when the id is `"all"`), the text
styling flags on the title, the title itself, and the two counters. -/
structure RenderedRow where
  leadingIcons : List RowIcon
  bold : Bool
  muted : Bool
  italic : Bool
  title : String
  commandCount : Nat
  commentCount : Nat
  deriving Repr, DecidableEq

/-- The row `CommentsList` renders for one presentation item:
`{id !== 'all' && <CarbonIcon icon={getIcon(id)}/>}`, then a `Txt` with
`bold={['all','favorited'].includes(id)}`,
`muted={id === 'procedural'}`, `italic={id === 'procedural'}` holding
`rowTitle(item)`, then the command and comment counters. -/
def renderRow (item : PresentationItem) : RenderedRow :=
  { leadingIcons := if item.id = "all" then [] else [getIcon item.id]
    bold := item.id = "all" || item.id = "favorited"
    muted := item.id = "procedural"
    italic := item.id = "procedural"
    title := rowTitle item
    commandCount := item.commandCount
    commentCount := item.count }

/-- C9: a `"favorited"` item renders bold with a star icon; a
`"procedural"` item renders muted and italic with exactly one leading
icon, the playlist icon; an item with id and key `"user-alice"` renders
the title `"alice"`; generally the icon is chosen from the id (star /
playlist / person for a `"user-"` prefix / hash), and the title is the
key with a leading `'#'` or `"user-"` prefix stripped. -/
theorem commentsList_row_rendering (item : PresentationItem) :
    (item.id = "favorited" →
      (renderRow item).bold = true ∧
      (renderRow item).leadingIcons = [RowIcon.starFilled]) ∧
    (item.id = "procedural" →
      (renderRow item).muted = true ∧ (renderRow item).italic = true ∧
      (renderRow item).leadingIcons = [RowIcon.playlist]) ∧
    (item.id = "user-alice" → item.key = item.id →
      (renderRow item).title = "alice") ∧
    (item.id ≠ "favorited" → item.id ≠ "procedural" → item.id.take 5 = "user-" →
      getIcon item.id = RowIcon.user) ∧
    (item.id ≠ "favorited" → item.id ≠ "procedural" → item.id.take 5 ≠ "user-" →
      getIcon item.id = RowIcon.hashtag) ∧
    (item.key.take 1 = "#" → (renderRow item).title = item.key.drop 1) ∧
    (item.key.take 1 ≠ "#" → item.key.take 5 = "user-" →
      (renderRow item).title = item.key.drop 5) := by
  refine ⟨?_, ?_, ?_, ?_, ?_, ?_, ?_⟩
  · intro hid; simp [renderRow, getIcon, hid]
  · intro hid; simp [renderRow, getIcon, hid]
  · intro hid hkey
    rw [hid] at hkey
    simp only [renderRow, rowTitle, hkey]
    decide
  · intro h₁ h₂ h₃; simp [getIcon, h₁, h₂, h₃]
  · intro h₁ h₂ h₃; simp [getIcon, h₁, h₂, h₃]
  · intro hk; simp [renderRow, rowTitle, hk]
  · intro hk₁ hk₂; simp [renderRow, rowTitle, hk₁, hk₂]

/-- Witness for C9: the three concrete items of the claim. -/
theorem commentsList_row_rendering_witness :
    ((renderRow ⟨"favorited", "favorited", 2, 3⟩).bold = true ∧
      (renderRow ⟨"favorited", "favorited", 2, 3⟩).leadingIcons
        = [RowIcon.starFilled]) ∧
    ((renderRow ⟨"procedural", "procedural", 0, 1⟩).muted = true ∧
      (renderRow ⟨"procedural", "procedural", 0, 1⟩).italic = true ∧
      (renderRow ⟨"procedural", "procedural", 0, 1⟩).leadingIcons
        = [RowIcon.playlist]) ∧
    (renderRow ⟨"user-alice", "user-alice", 4, 5⟩).title = "alice" :=
  ⟨(commentsList_row_rendering ⟨"favorited", "favorited", 2, 3⟩).1 rfl,
    (commentsList_row_rendering ⟨"procedural", "procedural", 0, 1⟩).2.1 rfl,
    (commentsList_row_rendering ⟨"user-alice", "user-alice", 4, 5⟩).2.2.1 rfl rfl⟩

end RedEye
